import Mathlib

/-!
Verification development for the paqet raw-packet datapath.

This file shallowly embeds the pieces of the paqet source that the
spec's testable properties talk about:

* `conf.TCPF` and the flag-letter parser (`internal/conf/tcp.go`);
* the round-robin `Iterator` (`internal/pkg/iterator/iterator.go`);
* the send-side TCP header synthesis (`buildTCPHeader`,
  `getClientTCPF`, `executeWrite` in `internal/socket/send_handle.go`);
* the bounded send queue with drop-on-overflow (`SendHandle.Write`),
  the worker retry loop (`processQueue`, `calculateBackoff`);
* the datagram facade's `ReadFrom` deadline handling (`PacketConn`);
* the client stream-open retry (`internal/client/dial.go`).

Machine integers are modelled as `Nat` with explicit reduction
modulo `2^32` (for Go `uint32`) and `2^64` (for Go `uint64`) exactly
where the Go code wraps.  Go heap state is passed explicitly: each
operation returns its result together with the updated state.
-/

/-- `2^32`, the modulus of Go `uint32` arithmetic. -/
def U32 : Nat := 4294967296

/-- `2^64`, the modulus of Go `uint64` arithmetic. -/
def U64 : Nat := 18446744073709551616

/-- `conf.TCPF` (internal/conf/tcp.go): one TCP flag bitset. -/
structure TCPF where
  FIN : Bool
  SYN : Bool
  RST : Bool
  PSH : Bool
  ACK : Bool
  URG : Bool
  ECE : Bool
  CWR : Bool
  NS : Bool
deriving DecidableEq

/-- The Go zero value of `conf.TCPF`: all flags clear. -/
def zeroTCPF : TCPF :=
  ⟨false, false, false, false, false, false, false, false, false⟩

/-- One step of `conf.strTCPF`'s switch over a flag letter. -/
def applyFlagChar (f : TCPF) (c : Char) : Except String TCPF :=
  if c = 'F' then .ok { f with FIN := true }
  else if c = 'S' then .ok { f with SYN := true }
  else if c = 'R' then .ok { f with RST := true }
  else if c = 'P' then .ok { f with PSH := true }
  else if c = 'A' then .ok { f with ACK := true }
  else if c = 'U' then .ok { f with URG := true }
  else if c = 'E' then .ok { f with ECE := true }
  else if c = 'C' then .ok { f with CWR := true }
  else if c = 'N' then .ok { f with NS := true }
  else .error "invalid TCP flag in combination"

/-- Loop body of `conf.strTCPF`: fold the letters over the zero value. -/
def strTCPFAux (f : TCPF) : List Char → Except String TCPF
  | [] => .ok f
  | c :: rest =>
    match applyFlagChar f c with
    | .ok f1 => strTCPFAux f1 rest
    | .error e => .error e

/-- `conf.strTCPF` (internal/conf/tcp.go): parse a flag-letter string. -/
def strTCPF (s : List Char) : Except String TCPF :=
  strTCPFAux zeroTCPF s

/-- `iterator.Iterator` (internal/pkg/iterator/iterator.go).  `index`
models the `atomic.Uint64` counter, so it lives modulo `U64`. -/
structure Iterator (T : Type) where
  Items : List T
  index : Nat

/-- `Iterator.Next`: pre-increment the index, then select
`Items[i & (n-1)]` on the power-of-two fast path or `Items[i % n]`
otherwise.  `zero` is the Go zero value of `T` returned for an empty
item list (the in-range indexing itself never needs the default). -/
def Iterator.Next {T : Type} (it : Iterator T) (zero : T) : T × Iterator T :=
  let n := it.Items.length
  if n = 0 then (zero, it)
  else
    let i := (it.index + 1) % U64
    let it1 : Iterator T := { it with index := i }
    if n &&& (n - 1) = 0 then (it.Items.getD (i &&& (n - 1)) zero, it1)
    else (it.Items.getD (i % n) zero, it1)

/-- The emitted TCP header fields set by `buildTCPHeader`
(internal/socket/send_handle.go): ports, flags, seq/ack, window and
the two timestamp option words (TSval, TSecr). -/
structure TCPHeader where
  srcPort : Nat
  dstPort : Nat
  flags : TCPF
  seq : Nat
  ack : Nat
  window : Nat
  tsVal : Nat
  tsEcr : Nat
deriving DecidableEq

/-- The mutable fields of `socket.SendHandle` consulted by the header
builder and the flag-profile selection: the fixed boot-time base
`time`, the global `tsCounter`, the default local-flag iterator
`tcpF.tcpF` and the per-destination override map `tcpF.clientTCPF`.
The Go map is keyed by `hash.IPAddr(ip, port)`; `pkg/hash` is not in
the sources, so the map is modelled keyed by the `(ip, port)` pair
itself (no claim depends on hash values or collisions). -/
structure SendHandle where
  srcPort : Nat
  time : Nat
  tsCounter : Nat
  lf : Iterator TCPF
  clientTCPF : List ((Nat × Nat) × Iterator TCPF)

/-- Association-list lookup for the per-destination override map. -/
def findTCPF : List ((Nat × Nat) × Iterator TCPF) → Nat × Nat → Option (Iterator TCPF)
  | [], _ => none
  | (k1, it) :: rest, k => if k1 = k then some it else findTCPF rest k

/-- Association-list update for the per-destination override map
(the Go code mutates the stored iterator in place). -/
def updateTCPF : List ((Nat × Nat) × Iterator TCPF) → Nat × Nat → Iterator TCPF → List ((Nat × Nat) × Iterator TCPF)
  | [], _, _ => []
  | (k1, it) :: rest, k, it1 =>
    if k1 = k then (k1, it1) :: rest else (k1, it) :: updateTCPF rest k it1

/-- `SendHandle.getClientTCPF`: per-destination override if present,
else the default round-robin local-profile iterator. -/
def SendHandle.getClientTCPF (h : SendHandle) (dstIP dstPort : Nat) : TCPF × SendHandle :=
  match findTCPF h.clientTCPF (dstIP, dstPort) with
  | some it =>
    let r := it.Next zeroTCPF
    (r.1, { h with clientTCPF := updateTCPF h.clientTCPF (dstIP, dstPort) r.2 })
  | none =>
    let r := h.lf.Next zeroTCPF
    (r.1, { h with lf := r.2 })

/-- `SendHandle.buildTCPHeader` (internal/socket/send_handle.go lines
177-208).  The counter is atomically incremented (wrapping `uint32`),
`tsVal = time + (counter >> 3)`; a SYN segment gets
`seq = 1 + (counter & 0x7)` and `ack = 0` (or `seq+1` when ACK is also
set) with `TSecr = 0`; any other segment gets
`seq = time + (counter << 7)`, `ack = seq - (counter & 0x3FF) + 1400`
and `TSecr = tsVal - (counter % 200 + 50)`, all in wrapping `uint32`
arithmetic.  `uint32` subtraction `a - b` is written
`(a + U32 - b) % U32` with `b < U32`. -/
def SendHandle.buildTCPHeader (h : SendHandle) (dstPort : Nat) (f : TCPF) : TCPHeader × SendHandle :=
  let counter := (h.tsCounter + 1) % U32
  let h1 : SendHandle := { h with tsCounter := counter }
  let tsVal := (h.time + counter / 8) % U32
  if f.SYN then
    let seq := (1 + (counter &&& 7)) % U32
    let ack := if f.ACK then (seq + 1) % U32 else 0
    (⟨h.srcPort, dstPort, f, seq, ack, 65535, tsVal, 0⟩, h1)
  else
    let tsEcr := (tsVal + U32 - (counter % 200 + 50)) % U32
    let seq := (h.time + counter * 128) % U32
    let ack := (seq + U32 - (counter &&& 1023) + 1400) % U32
    (⟨h.srcPort, dstPort, f, seq, ack, 65535, tsVal, tsEcr⟩, h1)

/-- One wire frame as the claims see it: the synthesized TCP header
plus the datagram payload handed to `Write`. -/
structure Frame where
  tcp : TCPHeader
  payload : List Nat
deriving DecidableEq

/-- The header-building part of `SendHandle.executeWrite`: select the
flag profile for the destination, then build the TCP header.  The
payload is carried into the frame unchanged; nothing in the header
depends on it. -/
def SendHandle.executeWrite (h : SendHandle) (dstIP dstPort : Nat) (payload : List Nat) : Frame × SendHandle :=
  let r := h.getClientTCPF dstIP dstPort
  let r2 := r.2.buildTCPHeader dstPort r.1
  (⟨r2.1, payload⟩, r2.2)

/-- Successive writes to one destination: the frames emitted for each
payload in order, threading the handle state. -/
def SendHandle.emitFrames (h : SendHandle) (dstIP dstPort : Nat) : List (List Nat) → List Frame × SendHandle
  | [] => ([], h)
  | p :: ps =>
    let r := h.executeWrite dstIP dstPort p
    let rs := r.2.emitFrames dstIP dstPort ps
    (r.1 :: rs.1, rs.2)

/-- One Send Request as queued by `SendHandle.Write`: owned payload
copy, destination, retry counter (the one-shot completion channel is
modelled by the delivered outcome below). -/
structure SendReq where
  payload : List Nat
  dstIP : Nat
  dstPort : Nat
  retries : Nat
deriving DecidableEq

/-- Result of `SendHandle.Write`'s enqueue select. -/
inductive WriteResult where
  | queued
  | queueFull
  | cancelled
deriving DecidableEq

/-- The bounded send queue (`SendHandle.sendQueue`, capacity
`cfg.PCAP.SendQueueSize`) together with the `droppedPackets`
counter. -/
structure QueueState where
  capacity : Nat
  pending : List SendReq
  dropped : Nat
deriving DecidableEq

/-- The enqueue select of `SendHandle.Write` (send_handle.go lines
222-232).  With a live context the Go select is deterministic: the
channel-send case is ready iff the buffered channel has room,
otherwise the `default` branch counts a drop and fails with the
queue-full error.  When the context is already cancelled the Go select
may take either ready branch; the model resolves that race in favour
of the cancellation branch (every claim below uses `ctxDone = false`,
where no race exists). -/
def QueueState.write (s : QueueState) (ctxDone : Bool) (r : SendReq) : WriteResult × QueueState :=
  if ctxDone then (.cancelled, s)
  else if s.pending.length < s.capacity then
    (.queued, { s with pending := s.pending ++ [r] })
  else
    (.queueFull, { s with dropped := s.dropped + 1 })

/-- A worker receiving from the send queue (`processQueue`'s
`req := <-h.sendQueue`). -/
def QueueState.dequeue (s : QueueState) : Option SendReq × QueueState :=
  match s.pending with
  | [] => (none, s)
  | r :: rest => (some r, { s with pending := rest })

/-- An interleaving step on the queue: a caller enqueue or a worker
dequeue. -/
inductive QOp where
  | enq (r : SendReq)
  | deq
deriving DecidableEq

/-- Apply one queue step (enqueues go through `QueueState.write` with
a live context). -/
def QueueState.applyOp (s : QueueState) (op : QOp) : QueueState :=
  match op with
  | .enq r => (s.write false r).2
  | .deq => s.dequeue.2

/-- Run a sequence of interleaved queue steps. -/
def QueueState.runOps (s : QueueState) (ops : List QOp) : QueueState :=
  ops.foldl QueueState.applyOp s

/-- `SendHandle.calculateBackoff` (send_handle.go lines 291-300):
`min(maxBackoff, initialBackoff * 2^(retries-1))` plus up to 20%
jitter.  `r` models `rand.Float64()`, a value in `[0, 1)`; the float
literal `0.2` and the float arithmetic are idealized over `ℚ`. -/
def calculateBackoff (initialBackoff maxBackoff retries : Nat) (r : ℚ) : ℚ :=
  let backoffMs : ℚ := min ((initialBackoff : ℚ) * 2 ^ (retries - 1)) ((maxBackoff : ℚ))
  backoffMs + backoffMs * (1 / 5) * r

/-- The whole-millisecond duration actually slept:
`time.Duration(backoffMs + jitter) * time.Millisecond` truncates the
float to an integer count. -/
def backoffSleepMs (initialBackoff maxBackoff retries : Nat) (r : ℚ) : ℤ :=
  ⌊calculateBackoff initialBackoff maxBackoff retries r⌋

/-- What the request's completion channel finally receives. -/
inductive ReqFate where
  | ok
  | failedFinal
  | droppedOnRetry
deriving DecidableEq

/-- The lifecycle of one request in the workers: injection attempts
performed, backoff sleeps taken, and the value delivered on the
completion channel. -/
structure ReqOutcome where
  attempts : Nat
  sleeps : List ℚ
  delivered : ReqFate
deriving DecidableEq

/-- The per-request behaviour of `processQueue` (send_handle.go lines
243-289) with a live context: attempt the raw write; on failure with
`retries < maxRetries` increment the retry counter, sleep
`calculateBackoff` and re-enqueue (non-blocking; a full queue drops
the request and delivers the queue-full error); otherwise deliver the
attempt's result.  `succeeds k` is the outcome of the injection
attempt made with retry counter `k`, `requeueOk k` whether the
non-blocking re-enqueue for retry `k` finds room, `jit k` the jitter
draw for retry `k`. -/
def processReq (maxRetries initMs maxMs : Nat) (succeeds requeueOk : Nat → Bool) (jit : Nat → ℚ) (retries : Nat) : ReqOutcome :=
  if succeeds retries then ⟨1, [], .ok⟩
  else if h : retries < maxRetries then
    let s := calculateBackoff initMs maxMs (retries + 1) (jit (retries + 1))
    if requeueOk (retries + 1) then
      let o := processReq maxRetries initMs maxMs succeeds requeueOk jit (retries + 1)
      ⟨o.attempts + 1, s :: o.sleeps, o.delivered⟩
    else ⟨1, [s], .droppedOnRetry⟩
  else ⟨1, [], .failedFinal⟩
termination_by maxRetries - retries
decreasing_by omega

/-- Result of one `PacketConn.ReadFrom` call. -/
inductive ReadOutcome where
  | ok (n : Nat)
  | errCtx
  | errDeadlineExceeded
  | blocked
deriving DecidableEq

/-- `PacketConn.ReadFrom` (the packet-channel facade): the entry
select checks the context and the read-deadline timer once, with a
`default` branch, and then calls the blocking `recvHandle.Read`.
`timerFired` holds iff a read deadline was set and its timer had
already fired when the select ran; `nextFrame` is the next inbound
frame the capture handle will ever deliver (`none` if no frame ever
arrives), and `bufLen` the caller's buffer length (the returned count
is `copy`'s `min`).  `blocked` marks the call that never returns. -/
def ReadFrom (ctxDone timerFired : Bool) (nextFrame : Option (List Nat)) (bufLen : Nat) : ReadOutcome :=
  if ctxDone then .errCtx
  else if timerFired then .errDeadlineExceeded
  else
    match nextFrame with
    | some payload => .ok (min bufLen payload.length)
    | none => .blocked

/-- `Client.calculateRetryBackoff` (internal/client/dial.go lines
106-124): non-positive configured values fall back to 100 ms initial
and 10000 ms max; the sleep for attempt `A` is
`min(maxBackoff, initialBackoff * 2^A)` (no jitter; float arithmetic
idealized over `ℚ`, exact for these integer values). -/
def calculateRetryBackoff (initMs maxMs : Int) (attempt : Nat) : ℚ :=
  let i : Int := if initMs ≤ 0 then 100 else initMs
  let m : Int := if maxMs ≤ 0 then 10000 else maxMs
  min ((i : ℚ) * 2 ^ attempt) ((m : ℚ))

/-- Result of a client `newStrm` call: how many attempt rounds ran
(each round is one `newConn` and, if it succeeds, one `OpenStrm`),
the backoff sleeps taken, and whether a stream was obtained. -/
structure StrmOutcome where
  attempts : Nat
  sleeps : List ℚ
  ok : Bool
deriving DecidableEq

/-- Body of `Client.newStrmWithRetry` (dial.go lines 77-104) with the
resolved attempt bound passed explicitly.  `connOk k` is whether
`newConn` succeeds on attempt `k`, `strmOk k` whether `OpenStrm`
then succeeds.  Each failed attempt sleeps
`calculateRetryBackoff attempt` and recurses with `attempt + 1`. -/
def newStrmWithRetryAux (maxAttempts : Nat) (initMs maxMs : Int) (connOk strmOk : Nat → Bool) (attempt : Nat) : StrmOutcome :=
  if h : maxAttempts ≤ attempt then ⟨0, [], false⟩
  else if connOk attempt = false then
    let s := calculateRetryBackoff initMs maxMs attempt
    let o := newStrmWithRetryAux maxAttempts initMs maxMs connOk strmOk (attempt + 1)
    ⟨o.attempts + 1, s :: o.sleeps, o.ok⟩
  else if strmOk attempt = false then
    let s := calculateRetryBackoff initMs maxMs attempt
    let o := newStrmWithRetryAux maxAttempts initMs maxMs connOk strmOk (attempt + 1)
    ⟨o.attempts + 1, s :: o.sleeps, o.ok⟩
  else ⟨1, [], true⟩
termination_by maxAttempts - attempt
decreasing_by all_goals omega

/-- `Client.newStrmWithRetry` from attempt 0, resolving
`cfg.Performance.MaxRetryAttempts`: values `≤ 0` default to 5.  (The
Go code re-derives this constant bound inside every recursive call;
since `attempt` only grows, hoisting it is equivalent, and the
resolved bound is at least 1 so the `int` comparison
`attempt >= maxAttempts` coincides with the `Nat` one.) -/
def newStrm (cfgMaxAttempts initMs maxMs : Int) (connOk strmOk : Nat → Bool) : StrmOutcome :=
  newStrmWithRetryAux (if cfgMaxAttempts ≤ 0 then 5 else cfgMaxAttempts).toNat initMs maxMs connOk strmOk 0

/-- `socket.TCPMeta` (the receive path): the TCP metadata extracted
from one observed inbound segment by `RecvHandle.Read`.  Note that
nothing in the sources feeds any of these fields back into the send
path. -/
structure TCPMeta where
  SrcIP : Nat
  DstIP : Nat
  SrcPort : Nat
  DstPort : Nat
  Seq : Nat
  Ack : Nat
  SYN : Bool
  FIN : Bool
  RST : Bool
  PSH : Bool
  ACK : Bool
  PayloadLen : Nat
  TSVal : Nat
  HasTS : Bool
deriving DecidableEq

/-- The `"PA"` flag profile (PSH+ACK). -/
def paF : TCPF := ⟨false, false, false, true, true, false, false, false, false⟩

/-- The `"A"` flag profile (ACK). -/
def aF : TCPF := ⟨false, false, false, false, true, false, false, false, false⟩

/-- A freshly constructed send handle with boot time base 0, counter
0, the given local flag profiles and no per-destination override. -/
def freshHandle (profiles : List TCPF) : SendHandle :=
  ⟨40000, 0, 0, ⟨profiles, 0⟩, []⟩

/-- A send handle whose boot-time base sits at the top of the
`uint32` range, so the TSval computation wraps after a few calls. -/
def wrapHandle : SendHandle := ⟨40000, U32 - 1, 6, ⟨[paF], 0⟩, []⟩

/-- A concrete observed remote segment: seq 1000, 50 payload bytes,
flags PSH|ACK, TSval 777. -/
def remoteSeg : TCPMeta :=
  { SrcIP := 1, DstIP := 2, SrcPort := 9999, DstPort := 40000,
    Seq := 1000, Ack := 0, SYN := false, FIN := false, RST := false,
    PSH := true, ACK := true, PayloadLen := 50, TSVal := 777, HasTS := true }

/-- The two frames a fresh handle with the default `"PA"` profile
emits for payloads of length 100 and 50. -/
def c1Frames : List Frame :=
  ((freshHandle [paF]).emitFrames 1 9999 [List.replicate 100 7, List.replicate 50 7]).1

/-- The three frames a fresh handle with local profiles `["PA","A"]`
emits for three successive writes to one destination. -/
def c6Frames : List Frame :=
  ((freshHandle [paF, aF]).emitFrames 1 9999 [[1], [2], [3]]).1

theorem and_two_pow_sub_one_eq_mod (i k : Nat) : i &&& (2 ^ k - 1) = i % 2 ^ k := by
  apply Nat.eq_of_testBit_eq
  intro j
  rw [Nat.testBit_and, Nat.testBit_two_pow_sub_one, Nat.testBit_mod_two_pow]
  exact Bool.and_comm _ _

theorem exists_pow_of_and_pred_eq_zero : ∀ n : Nat, n ≠ 0 → n &&& (n - 1) = 0 → ∃ k, n = 2 ^ k := by
  intro n
  induction n using Nat.strong_induction_on with
  | _ n ih =>
    intro hn h
    rcases Nat.lt_or_ge n 2 with h2 | h2
    · have h1 : n = 1 := by omega
      exact ⟨0, by simp [h1]⟩
    · have hbits : ∀ j, (n.testBit j && (n - 1).testBit j) = false := by
        intro j
        rw [← Nat.testBit_and, h]
        exact Nat.zero_testBit j
      rcases Nat.even_or_odd n with he | ho
      · have hm2 : n % 2 = 0 := Nat.even_iff.mp he
        have hm : n / 2 &&& (n / 2 - 1) = 0 := by
          apply Nat.eq_of_testBit_eq
          intro j
          rw [Nat.testBit_and, Nat.zero_testBit]
          have hb := hbits (Nat.succ j)
          rw [Nat.testBit_succ, Nat.testBit_succ] at hb
          have hdiv : (n - 1) / 2 = n / 2 - 1 := by omega
          rw [hdiv] at hb
          exact hb
        have hne : n / 2 ≠ 0 := by omega
        obtain ⟨k, hk⟩ := ih (n / 2) (by omega) hne hm
        refine ⟨k + 1, ?_⟩
        have hsplit : n = 2 * (n / 2) := by omega
        rw [hsplit, hk]
        ring
      · have hm2 : n % 2 = 1 := Nat.odd_iff.mp ho
        have hz : n / 2 = 0 := by
          apply Nat.eq_of_testBit_eq
          intro j
          rw [Nat.zero_testBit]
          have hb := hbits (Nat.succ j)
          rw [Nat.testBit_succ, Nat.testBit_succ] at hb
          have hdiv : (n - 1) / 2 = n / 2 := by omega
          rw [hdiv] at hb
          cases hx : (n / 2).testBit j
          · rfl
          · rw [hx] at hb
            simp at hb
        omega

/-- C10: for every non-empty Items list, `Iterator.Next` returns
`Items[i mod len(Items)]` where `i` is the freshly incremented
(wrapping `uint64`) index; in particular on the power-of-two fast
path the bitmask `i & (n-1)` selects the same element as `i % n`, so
both code paths implement the same round-robin selection. -/
theorem iterator_next_selects_mod {T : Type} (it : Iterator T) (zero : T) (h : it.Items ≠ []) :
    (it.Next zero).1 = it.Items.getD (((it.index + 1) % U64) % it.Items.length) zero := by
  have hn : ¬ it.Items.length = 0 := by simpa using h
  simp only [Iterator.Next, hn, if_false]
  split
  · next htwo =>
    obtain ⟨k, hk⟩ := exists_pow_of_and_pred_eq_zero it.Items.length hn htwo
    rw [hk, and_two_pow_sub_one_eq_mod]
  · rfl

theorem iterator_next_selects_mod_witness :
    ([10, 20, 30, 40] : List Nat) ≠ [] ∧
      ((⟨[10, 20, 30, 40], 5⟩ : Iterator Nat).Next 0).1 = 30 := by
  refine ⟨by decide, ?_⟩
  rw [iterator_next_selects_mod ⟨[10, 20, 30, 40], 5⟩ 0 (by decide)]
  decide

theorem getClientTCPF_preserves (h : SendHandle) (dstIP dstPort : Nat) :
    (h.getClientTCPF dstIP dstPort).2.time = h.time ∧
      (h.getClientTCPF dstIP dstPort).2.tsCounter = h.tsCounter ∧
      (h.getClientTCPF dstIP dstPort).2.srcPort = h.srcPort := by
  unfold SendHandle.getClientTCPF
  cases findTCPF h.clientTCPF (dstIP, dstPort) <;> simp

theorem buildTCPHeader_state (h : SendHandle) (p : Nat) (f : TCPF) :
    (h.buildTCPHeader p f).2 = { h with tsCounter := (h.tsCounter + 1) % U32 } := by
  unfold SendHandle.buildTCPHeader
  split <;> rfl

theorem buildTCPHeader_flags (h : SendHandle) (p : Nat) (f : TCPF) :
    ((h.buildTCPHeader p f).1).flags = f := by
  unfold SendHandle.buildTCPHeader
  split <;> rfl

theorem buildTCPHeader_seq_of_not_syn (h : SendHandle) (p : Nat) (f : TCPF) (hs : f.SYN = false) :
    ((h.buildTCPHeader p f).1).seq = (h.time + ((h.tsCounter + 1) % U32) * 128) % U32 := by
  simp [SendHandle.buildTCPHeader, hs]

theorem executeWrite_tcp (h : SendHandle) (dstIP dstPort : Nat) (p : List Nat) :
    ((h.executeWrite dstIP dstPort p).1).tcp
        = ((h.getClientTCPF dstIP dstPort).2.buildTCPHeader dstPort (h.getClientTCPF dstIP dstPort).1).1 ∧
      (h.executeWrite dstIP dstPort p).2
        = ((h.getClientTCPF dstIP dstPort).2.buildTCPHeader dstPort (h.getClientTCPF dstIP dstPort).1).2 :=
  ⟨rfl, rfl⟩

theorem executeWrite_state (h : SendHandle) (dstIP dstPort : Nat) (p : List Nat) :
    (h.executeWrite dstIP dstPort p).2.time = h.time ∧
      (h.executeWrite dstIP dstPort p).2.tsCounter = (h.tsCounter + 1) % U32 := by
  obtain ⟨ht, hc, _⟩ := getClientTCPF_preserves h dstIP dstPort
  rw [(executeWrite_tcp h dstIP dstPort p).2, buildTCPHeader_state]
  exact ⟨ht, by rw [hc]⟩

theorem executeWrite_seq_of_not_syn (h : SendHandle) (dstIP dstPort : Nat) (p : List Nat)
    (hs : ((h.executeWrite dstIP dstPort p).1).tcp.flags.SYN = false) :
    ((h.executeWrite dstIP dstPort p).1).tcp.seq
      = (h.time + ((h.tsCounter + 1) % U32) * 128) % U32 := by
  obtain ⟨ht, hc, _⟩ := getClientTCPF_preserves h dstIP dstPort
  rw [(executeWrite_tcp h dstIP dstPort p).1] at hs ⊢
  rw [buildTCPHeader_flags] at hs
  rw [buildTCPHeader_seq_of_not_syn _ _ _ hs, ht, hc]

theorem seq_mod_step (t a : Nat) :
    (t + ((a + 1) % U32) * 128) % U32 = ((t + a * 128) % U32 + 128) % U32 := by
  unfold U32 at *
  omega

theorem and_1023_eq_mod (c : Nat) : c &&& 1023 = c % 1024 := by
  have h := and_two_pow_sub_one_eq_mod c 10
  norm_num at h
  exact h

/-- C1 counterexample: a fresh handle with the default `"PA"` profile
emits, for two successive writes with payload lengths 100 and 50 and
no SYN/FIN, the seq values 128 and 256; the claim's recurrence
`S2 = S1 + L1 + b1` would require 228. -/
theorem seq_monotonicity_counterexample :
    (c1Frames.map fun fr => fr.tcp.seq) = [128, 256] ∧
      (c1Frames.map fun fr => fr.payload.length) = [100, 50] ∧
      (c1Frames.map fun fr => (fr.tcp.flags.SYN || fr.tcp.flags.FIN)) = [false, false] ∧
      ¬ ((256 : Nat) = (128 + 100 + 0) % U32) := by
  refine ⟨by decide, by decide, by decide, by decide⟩

/-- C1 (amended): the emitted seq does not advance by payload length
plus SYN/FIN; instead, whenever two successive writes to a destination
both draw a non-SYN flag profile, the second emitted seq equals the
first plus exactly 128 modulo `2^32`, independently of the payloads
(the seq is `time + 128 * counter` in wrapping `uint32` arithmetic,
driven by the per-call counter alone). -/
theorem seq_advances_by_128 (h : SendHandle) (dstIP dstPort : Nat) (p1 p2 : List Nat)
    (h1 : ((h.executeWrite dstIP dstPort p1).1).tcp.flags.SYN = false)
    (h2 : ((((h.executeWrite dstIP dstPort p1).2).executeWrite dstIP dstPort p2).1).tcp.flags.SYN = false) :
    ((((h.executeWrite dstIP dstPort p1).2).executeWrite dstIP dstPort p2).1).tcp.seq
      = (((h.executeWrite dstIP dstPort p1).1).tcp.seq + 128) % U32 := by
  obtain ⟨ht, hc⟩ := executeWrite_state h dstIP dstPort p1
  rw [executeWrite_seq_of_not_syn _ _ _ _ h2, executeWrite_seq_of_not_syn _ _ _ _ h1, ht, hc]
  exact seq_mod_step h.time ((h.tsCounter + 1) % U32)

theorem seq_advances_by_128_witness :
    ((((freshHandle [paF]).executeWrite 1 9999 [7]).2).executeWrite 1 9999 [8]).1.tcp.seq
      = ((((freshHandle [paF]).executeWrite 1 9999 [7]).1).tcp.seq + 128) % U32 :=
  seq_advances_by_128 (freshHandle [paF]) 1 9999 [7] [8] (by decide) (by decide)

/-- C2 counterexample: with a remote segment `remoteSeg` observed
(seq 1000, 50 bytes, PSH|ACK — so the claim demands the next outbound
ack be 1050, and with no observation it demands 0), a fresh handle's
next outbound segment carries ack 1527: the receive path never feeds
observed segments back into the send path, and the ack is synthesized
from the per-call counter. -/
theorem ack_consistency_counterexample :
    ((freshHandle [paF]).buildTCPHeader 9999 paF).1.ack = 1527 ∧
      remoteSeg.Seq + remoteSeg.PayloadLen
          + (if remoteSeg.SYN || remoteSeg.FIN then 1 else 0) = 1050 ∧
      ¬ ((1527 : Nat) = 1050) ∧ ¬ ((1527 : Nat) = 0) := by
  refine ⟨by decide, by decide, by decide, by decide⟩

/-- C2 (amended): the outbound ack is independent of any observed
remote segment; for a non-SYN profile it equals
`seq + 1400 - (counter mod 1024)` in wrapping `uint32` arithmetic,
and for a SYN profile it is 0, or `seq + 1` when ACK is also set. -/
theorem ack_from_counter (h : SendHandle) (p : Nat) (f : TCPF) :
    (f.SYN = false →
      ((h.buildTCPHeader p f).1).ack
        = (((h.buildTCPHeader p f).1).seq + 1400 + (U32 - ((h.tsCounter + 1) % U32) % 1024)) % U32) ∧
    (f.SYN = true → f.ACK = false → ((h.buildTCPHeader p f).1).ack = 0) ∧
    (f.SYN = true → f.ACK = true →
      ((h.buildTCPHeader p f).1).ack = (((h.buildTCPHeader p f).1).seq + 1) % U32) := by
  refine ⟨fun hs => ?_, fun hs ha => ?_, fun hs ha => ?_⟩
  · simp only [SendHandle.buildTCPHeader, hs]
    rw [and_1023_eq_mod]
    simp only [Bool.false_eq_true, if_false]
    have hm : ((h.tsCounter + 1) % U32) % 1024 ≤ 1023 := by omega
    unfold U32 at *
    omega
  · simp [SendHandle.buildTCPHeader, hs, ha]
  · simp [SendHandle.buildTCPHeader, hs, ha]

theorem ack_from_counter_witness :
    ((freshHandle [paF]).buildTCPHeader 9999 paF).1.ack
      = (((freshHandle [paF]).buildTCPHeader 9999 paF).1.seq + 1400
          + (U32 - ((0 + 1) % U32) % 1024)) % U32 :=
  (ack_from_counter (freshHandle [paF]) 9999 paF).1 (by decide)

/-- C3 counterexample: a fresh handle (no remote TSval ever observed,
and in fact no path in the sources records one) emits, on its first
non-SYN segment, `TSecr = 2^32 - 51`, not 0 — and not the TSval 777
carried by the concrete observed segment `remoteSeg` either. -/
theorem timestamp_echo_counterexample :
    ((freshHandle [paF]).buildTCPHeader 9999 paF).1.tsEcr = U32 - 51 ∧
      ¬ (((freshHandle [paF]).buildTCPHeader 9999 paF).1.tsEcr = 0) ∧
      ¬ (((freshHandle [paF]).buildTCPHeader 9999 paF).1.tsEcr = remoteSeg.TSVal) := by
  refine ⟨by decide, by decide, by decide⟩

/-- C3 (amended): TSecr does not echo any observed remote TSval; on a
non-SYN segment it is `TSval - (counter mod 200 + 50)` in wrapping
`uint32` arithmetic, and on a SYN segment it is 0. -/
theorem tsecr_from_counter (h : SendHandle) (p : Nat) (f : TCPF) :
    (f.SYN = false →
      ((h.buildTCPHeader p f).1).tsEcr
        = (((h.buildTCPHeader p f).1).tsVal + U32 - (((h.tsCounter + 1) % U32) % 200 + 50)) % U32) ∧
    (f.SYN = true → ((h.buildTCPHeader p f).1).tsEcr = 0) := by
  constructor
  · intro hs
    simp [SendHandle.buildTCPHeader, hs]
  · intro hs
    simp [SendHandle.buildTCPHeader, hs]

theorem tsecr_from_counter_witness :
    ((freshHandle [paF]).buildTCPHeader 9999 paF).1.tsEcr
      = (((freshHandle [paF]).buildTCPHeader 9999 paF).1.tsVal + U32
          - (((0 + 1) % U32) % 200 + 50)) % U32 :=
  (tsecr_from_counter (freshHandle [paF]) 9999 paF).1 (by decide)

/-- C9 counterexample: with the boot-time base at `2^32 - 1`, the
seventh and eighth calls emit TSval `2^32 - 1` and then 0: the
emitted TSval is not non-decreasing in the counter once
`boot_ms + (counter >> 3)` wraps the `uint32` range. -/
theorem tsval_counterexample :
    ((wrapHandle.buildTCPHeader 9999 paF).1).tsVal = U32 - 1 ∧
      (((wrapHandle.buildTCPHeader 9999 paF).2).buildTCPHeader 9999 paF).1.tsVal = 0 ∧
      ¬ (((wrapHandle.buildTCPHeader 9999 paF).1).tsVal
          ≤ (((wrapHandle.buildTCPHeader 9999 paF).2).buildTCPHeader 9999 paF).1.tsVal) := by
  refine ⟨by decide, by decide, by decide⟩

/-- C9 (amended): every header build advances the counter by exactly
one in wrapping `uint32` arithmetic, leaves the boot-time base
unchanged, and emits `TSval = (boot_ms + (counter >> 3)) mod 2^32`;
the emitted TSval is non-decreasing for counters ordered by value as
long as `boot_ms + (counter >> 3)` does not wrap the `uint32`
range. -/
theorem tsval_generation (h : SendHandle) (p : Nat) (f : TCPF) :
    (h.buildTCPHeader p f).2.tsCounter = (h.tsCounter + 1) % U32 ∧
      (h.buildTCPHeader p f).2.time = h.time ∧
      ((h.buildTCPHeader p f).1).tsVal = (h.time + ((h.tsCounter + 1) % U32) / 8) % U32 ∧
      ∀ c1 c2 : Nat, c1 ≤ c2 → h.time + c2 / 8 < U32 →
        (h.time + c1 / 8) % U32 ≤ (h.time + c2 / 8) % U32 := by
  refine ⟨?_, ?_, ?_, ?_⟩
  · rw [buildTCPHeader_state]
  · rw [buildTCPHeader_state]
  · unfold SendHandle.buildTCPHeader
    split <;> rfl
  · intro c1 c2 hle hlt
    unfold U32 at *
    omega

theorem tsval_generation_witness :
    ((freshHandle [paF]).buildTCPHeader 9999 paF).2.tsCounter = 1 ∧
      (0 + 1 / 8) % U32 ≤ (0 + 9 / 8) % U32 := by
  obtain ⟨hc, ht, hv, hm⟩ := tsval_generation (freshHandle [paF]) 9999 paF
  refine ⟨?_, hm 1 9 (by decide) (by decide)⟩
  rw [hc]
  decide

/-- C6 counterexample: with local profiles parsed from `["PA","A"]`
and no per-destination override, three successive writes to one
destination do not emit PSH+ACK, ACK, PSH+ACK. -/
theorem flag_rotation_counterexample :
    ¬ ((c6Frames.map fun fr => fr.tcp.flags) = [paF, aF, paF]) := by
  decide

/-- C6 (amended): with local profiles `["PA","A"]` and no
per-destination override, three successive writes to one destination
emit flag sets ACK, PSH+ACK, ACK: the profile list is cycled
round-robin, but `Iterator.Next` increments the index before
selecting, so the cycle starts at the second element. -/
theorem flag_rotation_from_second :
    strTCPF ['P', 'A'] = .ok paF ∧ strTCPF ['A'] = .ok aF ∧
      (c6Frames.map fun fr => fr.tcp.flags) = [aF, paF, aF] := by
  refine ⟨rfl, rfl, by decide⟩

theorem applyOp_invariant (s : QueueState) (op : QOp) (h : s.pending.length ≤ s.capacity) :
    (s.applyOp op).pending.length ≤ (s.applyOp op).capacity := by
  cases op with
  | enq r =>
    simp only [QueueState.applyOp, QueueState.write, Bool.false_eq_true, if_false]
    split
    · next hlt => simpa using hlt
    · simpa using h
  | deq =>
    simp only [QueueState.applyOp, QueueState.dequeue]
    cases hp : s.pending with
    | nil => simpa using h
    | cons a rest =>
      have h2 := h
      rw [hp] at h2
      simp at h2 ⊢
      omega

theorem applyOp_capacity (s : QueueState) (op : QOp) : (s.applyOp op).capacity = s.capacity := by
  cases op with
  | enq r =>
    simp only [QueueState.applyOp, QueueState.write, Bool.false_eq_true, if_false]
    split <;> rfl
  | deq =>
    cases hp : s.pending with
    | nil => simp [QueueState.applyOp, QueueState.dequeue, hp]
    | cons a rest => simp [QueueState.applyOp, QueueState.dequeue, hp]

theorem runOps_invariant (s0 : QueueState) (ops : List QOp) (h : s0.pending.length ≤ s0.capacity) :
    (s0.runOps ops).pending.length ≤ (s0.runOps ops).capacity := by
  induction ops generalizing s0 with
  | nil => simpa [QueueState.runOps] using h
  | cons op rest ih =>
    have h1 := applyOp_invariant s0 op h
    simpa [QueueState.runOps, List.foldl] using ih (s0.applyOp op) h1

/-- C4: with a live context, a `Write` issued while the queue already
holds `capacity` pending requests fails immediately with the
queue-full result, leaves the queue unchanged and increments the
dropped-packets counter by exactly one; and along any interleaving of
enqueues and worker dequeues the queue length never exceeds the
configured capacity. -/
theorem queue_backpressure (s : QueueState) (r : SendReq) (hfull : s.pending.length = s.capacity) :
    (s.write false r).1 = .queueFull ∧
      (s.write false r).2.dropped = s.dropped + 1 ∧
      (s.write false r).2.pending = s.pending ∧
      ∀ (s0 : QueueState) (ops : List QOp), s0.pending.length ≤ s0.capacity →
        (s0.runOps ops).pending.length ≤ (s0.runOps ops).capacity := by
  refine ⟨?_, ?_, ?_, fun s0 ops h => runOps_invariant s0 ops h⟩
  · simp [QueueState.write, hfull]
  · simp [QueueState.write, hfull]
  · simp [QueueState.write, hfull]

theorem queue_backpressure_witness :
    ((⟨2, [⟨[1], 1, 9999, 0⟩, ⟨[2], 1, 9999, 0⟩], 5⟩ : QueueState).write false ⟨[3], 1, 9999, 0⟩).1 = .queueFull ∧
      ((⟨2, [⟨[1], 1, 9999, 0⟩, ⟨[2], 1, 9999, 0⟩], 5⟩ : QueueState).write false ⟨[3], 1, 9999, 0⟩).2.dropped = 6 := by
  obtain ⟨h1, h2, h3, h4⟩ :=
    queue_backpressure ⟨2, [⟨[1], 1, 9999, 0⟩, ⟨[2], 1, 9999, 0⟩], 5⟩ ⟨[3], 1, 9999, 0⟩ (by decide)
  exact ⟨h1, by rw [h2]⟩

theorem processReq_attempts_le (maxRetries initMs maxMs : Nat) (succeeds requeueOk : Nat → Bool) (jit : Nat → ℚ) (retries : Nat) (hr : retries ≤ maxRetries) :
    (processReq maxRetries initMs maxMs succeeds requeueOk jit retries).attempts ≤ maxRetries + 1 - retries := by
  unfold processReq
  split
  · simp
    omega
  · split
    · next hlt =>
      split
      · have ih := processReq_attempts_le maxRetries initMs maxMs succeeds requeueOk jit (retries + 1) (by omega)
        simp
        omega
      · simp
        omega
    · next hge =>
      simp
      omega
termination_by maxRetries - retries
decreasing_by omega

theorem processReq_exhaust (maxRetries initMs maxMs : Nat) (succeeds requeueOk : Nat → Bool) (jit : Nat → ℚ)
    (hf : ∀ k, succeeds k = false) (hq : ∀ k, requeueOk k = true) (retries : Nat) (hr : retries ≤ maxRetries) :
    (processReq maxRetries initMs maxMs succeeds requeueOk jit retries).attempts = maxRetries + 1 - retries ∧
      (processReq maxRetries initMs maxMs succeeds requeueOk jit retries).delivered = .failedFinal := by
  unfold processReq
  rw [hf retries]
  simp only [Bool.false_eq_true, if_false]
  split
  · next hlt =>
    rw [hq (retries + 1)]
    have ih := processReq_exhaust maxRetries initMs maxMs succeeds requeueOk jit hf hq (retries + 1) (by omega)
    simp only [if_true, ih.2]
    constructor
    · simp [ih.1]
      omega
    · simp
  · next hge =>
    have h2 : retries = maxRetries := by omega
    simp [h2]
termination_by maxRetries - retries
decreasing_by omega

theorem calculateBackoff_bounds (i m k : Nat) (r : ℚ) (h0 : 0 ≤ r) (h1 : r ≤ 1) :
    min ((i : ℚ) * 2 ^ (k - 1)) (m : ℚ) ≤ calculateBackoff i m k r ∧
      calculateBackoff i m k r ≤ min ((i : ℚ) * 2 ^ (k - 1)) (m : ℚ) * (6 / 5) := by
  have hb : (0 : ℚ) ≤ min ((i : ℚ) * 2 ^ (k - 1)) (m : ℚ) := le_min (by positivity) (by positivity)
  simp only [calculateBackoff]
  constructor
  · nlinarith [mul_nonneg hb h0]
  · nlinarith [mul_nonneg hb (sub_nonneg.mpr h1)]

/-- C5: for each enqueued Send Request the workers perform at most
`max_retries + 1` injection attempts; the sleep before the k-th retry
is `min(max_backoff, initial_backoff * 2^(k-1))` plus at most 20%
jitter; a request whose first attempt succeeds has its success
delivered on the completion channel, and when every attempt fails
(with re-enqueues finding room) the error is delivered after exactly
`max_retries + 1` attempts. -/
theorem send_retry_bounded (maxRetries initMs maxMs : Nat) (succeeds requeueOk : Nat → Bool) (jit : Nat → ℚ) :
    (processReq maxRetries initMs maxMs succeeds requeueOk jit 0).attempts ≤ maxRetries + 1 ∧
      (∀ (k : Nat) (r : ℚ), 0 ≤ r → r ≤ 1 →
        min ((initMs : ℚ) * 2 ^ (k - 1)) (maxMs : ℚ) ≤ calculateBackoff initMs maxMs k r ∧
          calculateBackoff initMs maxMs k r ≤ min ((initMs : ℚ) * 2 ^ (k - 1)) (maxMs : ℚ) * (6 / 5)) ∧
      (succeeds 0 = true → (processReq maxRetries initMs maxMs succeeds requeueOk jit 0).delivered = .ok) ∧
      ((∀ k, succeeds k = false) → (∀ k, requeueOk k = true) →
        (processReq maxRetries initMs maxMs succeeds requeueOk jit 0).attempts = maxRetries + 1 ∧
          (processReq maxRetries initMs maxMs succeeds requeueOk jit 0).delivered = .failedFinal) := by
  refine ⟨?_, fun k r h0 h1 => calculateBackoff_bounds initMs maxMs k r h0 h1, ?_, ?_⟩
  · have h := processReq_attempts_le maxRetries initMs maxMs succeeds requeueOk jit 0 (by omega)
    omega
  · intro hs
    unfold processReq
    rw [hs]
    simp
  · intro hf hq
    have h := processReq_exhaust maxRetries initMs maxMs succeeds requeueOk jit hf hq 0 (by omega)
    simpa using h

theorem send_retry_bounded_witness :
    (processReq 3 100 10000 (fun _ => false) (fun _ => true) (fun _ => 0) 0).attempts = 3 + 1 ∧
      (processReq 3 100 10000 (fun _ => false) (fun _ => true) (fun _ => 0) 0).delivered = .failedFinal := by
  obtain ⟨h1, h2, h3, h4⟩ := send_retry_bounded 3 100 10000 (fun _ => false) (fun _ => true) (fun _ => 0)
  exact h4 (fun k => rfl) (fun k => rfl)

/-- C7 counterexample: with the context live and a read deadline that
has not yet expired at the entry select (`timerFired = false`), a
`ReadFrom` call with no frame ever arriving blocks forever in the
capture read — it does not return `ErrDeadlineExceeded` when the
deadline later expires. -/
theorem read_deadline_counterexample :
    ReadFrom false false none 10 = .blocked ∧
      ¬ (ReadFrom false false none 10 = .errDeadlineExceeded) := by
  refine ⟨rfl, by decide⟩

/-- C7 (amended): the read deadline is honored only by the one-shot
check at entry: if the deadline timer has already fired when
`ReadFrom` runs its entry select (context live), the call returns
`ErrDeadlineExceeded`; otherwise it blocks in the capture read with no
further deadline monitoring — it blocks forever if no frame arrives,
and returns the next frame (with the copied length) when one does. -/
theorem read_deadline_entry_only (fr : Option (List Nat)) (n : Nat) (p : List Nat) :
    ReadFrom false true fr n = .errDeadlineExceeded ∧
      ReadFrom false false none n = .blocked ∧
      ReadFrom false false (some p) n = .ok (min n p.length) := by
  exact ⟨rfl, rfl, rfl⟩

theorem newStrmAux_attempts_le (maxAttempts : Nat) (initMs maxMs : Int) (connOk strmOk : Nat → Bool) (attempt : Nat) :
    (newStrmWithRetryAux maxAttempts initMs maxMs connOk strmOk attempt).attempts ≤ maxAttempts - attempt := by
  unfold newStrmWithRetryAux
  split
  · simp
  · next hgt =>
    split
    · have ih := newStrmAux_attempts_le maxAttempts initMs maxMs connOk strmOk (attempt + 1)
      simp
      omega
    · split
      · have ih := newStrmAux_attempts_le maxAttempts initMs maxMs connOk strmOk (attempt + 1)
        simp
        omega
      · simp
        omega
termination_by maxAttempts - attempt
decreasing_by all_goals omega

theorem newStrmAux_exhaust (maxAttempts : Nat) (initMs maxMs : Int) (connOk strmOk : Nat → Bool)
    (hf : ∀ k, connOk k = false) (attempt : Nat) :
    (newStrmWithRetryAux maxAttempts initMs maxMs connOk strmOk attempt).attempts = maxAttempts - attempt ∧
      (newStrmWithRetryAux maxAttempts initMs maxMs connOk strmOk attempt).ok = false ∧
      (newStrmWithRetryAux maxAttempts initMs maxMs connOk strmOk attempt).sleeps
        = (List.range (maxAttempts - attempt)).map
            (fun j => calculateRetryBackoff initMs maxMs (attempt + j)) := by
  unfold newStrmWithRetryAux
  split
  · next hle => simp [Nat.sub_eq_zero_of_le hle]
  · next hgt =>
    rw [hf attempt]
    simp only [if_true]
    have ih := newStrmAux_exhaust maxAttempts initMs maxMs connOk strmOk hf (attempt + 1)
    refine ⟨?_, ?_, ?_⟩
    · simp [ih.1]
      omega
    · simpa using ih.2.1
    · simp only [ih.2.2]
      have hn : maxAttempts - attempt = maxAttempts - (attempt + 1) + 1 := by omega
      rw [hn, List.range_succ_eq_map]
      simp only [List.map_cons, List.map_map, Nat.add_zero]
      congr 1
      have hfun : ((fun j => calculateRetryBackoff initMs maxMs (attempt + j)) ∘ Nat.succ)
          = fun j => calculateRetryBackoff initMs maxMs (attempt + 1 + j) := by
        funext j
        simp only [Function.comp]
        congr 1
        omega
      rw [hfun]
termination_by maxAttempts - attempt
decreasing_by all_goals omega

theorem calculateRetryBackoff_pos (initMs maxMs : Int) (A : Nat) (hi : 0 < initMs) (hm : 0 < maxMs) :
    calculateRetryBackoff initMs maxMs A = min ((initMs : ℚ) * 2 ^ A) ((maxMs : ℚ)) := by
  simp only [calculateRetryBackoff]
  rw [if_neg (not_le.mpr hi), if_neg (not_le.mpr hm)]

/-- C8: a client `open_stream` performs at most the resolved
`max_retry_attempts` rounds (configured values ≤ 0 default to 5);
when every attempt fails it stops with failure after exactly that
many rounds, having slept `calculateRetryBackoff A` after each failed
attempt `A`, which for positive configured values is
`min(max_backoff, initial_backoff * 2^A)`; the recursion terminates
(the model is total, by the decreasing measure
`maxAttempts - attempt`). -/
theorem open_stream_bounded (cfgMax initMs maxMs : Int) (connOk strmOk : Nat → Bool) :
    (newStrm cfgMax initMs maxMs connOk strmOk).attempts ≤ (if cfgMax ≤ 0 then (5 : Int) else cfgMax).toNat ∧
      ((∀ k, connOk k = false) →
        (newStrm cfgMax initMs maxMs connOk strmOk).ok = false ∧
          (newStrm cfgMax initMs maxMs connOk strmOk).attempts = (if cfgMax ≤ 0 then (5 : Int) else cfgMax).toNat ∧
          (newStrm cfgMax initMs maxMs connOk strmOk).sleeps
            = (List.range (if cfgMax ≤ 0 then (5 : Int) else cfgMax).toNat).map
                (fun A => calculateRetryBackoff initMs maxMs A)) ∧
      (∀ A : Nat, 0 < initMs → 0 < maxMs →
        calculateRetryBackoff initMs maxMs A = min ((initMs : ℚ) * 2 ^ A) ((maxMs : ℚ))) := by
  refine ⟨?_, ?_, fun A hi hm => calculateRetryBackoff_pos initMs maxMs A hi hm⟩
  · have h := newStrmAux_attempts_le (if cfgMax ≤ 0 then (5 : Int) else cfgMax).toNat initMs maxMs connOk strmOk 0
    simpa [newStrm] using h
  · intro hf
    have h := newStrmAux_exhaust (if cfgMax ≤ 0 then (5 : Int) else cfgMax).toNat initMs maxMs connOk strmOk hf 0
    refine ⟨h.2.1, by simpa [newStrm] using h.1, ?_⟩
    have h3 := h.2.2
    simpa [newStrm] using h3

theorem open_stream_bounded_witness :
    (newStrm 0 100 10000 (fun _ => false) (fun _ => true)).ok = false ∧
      (newStrm 0 100 10000 (fun _ => false) (fun _ => true)).attempts = (5 : Nat) := by
  obtain ⟨h1, h2, h3⟩ := open_stream_bounded 0 100 10000 (fun _ => false) (fun _ => true)
  obtain ⟨ha, hb, hc⟩ := h2 (fun k => rfl)
  exact ⟨ha, by simpa using hb⟩
